import Mathlib

/-!
Shallow embedding of `edx/analytics/tasks/util/vertica_target.py`.

The external collaborator (the `vertica_python` driver) is modelled as a
small state machine: a `World` holds the marker table (an existence flag
and its rows), every connection opened so far, call counters, and fault
injectors that make the next SELECT, INSERT or CREATE fail with a chosen
database error.  Each Python method becomes a function
`World → result × World`; an exception escaping the method is an
`Except.error` value paired with the world as it stood when the
exception escaped.
-/

/-- A row of the marker table as far as the code observes it:
`(update_id, target_table)`. -/
abbrev Row := String × String

/-- One database connection as the client process sees it.  `pending`
holds rows inserted on this connection but not yet committed (on an
autocommit connection every insert is committed at once, so `pending`
stays empty). -/
structure ConnInfo where
  id : Nat
  autocommit : Bool
  isOpen : Bool
  pending : List Row
deriving DecidableEq

/-- Errors raised by the embedded code.  `verr m s` is a
`vertica_python` error whose first constructor field records whether
`type(err) is vertica_python.errors.MissingRelation` holds and whose
second field is `err.args[0]` (the message text).  `valueError` is a
Python `ValueError` (raised by `int(...)` and by tuple unpacking in the
constructor) and `assertionFailed` a Python `AssertionError` (raised by
the `assert` in `touch`). -/
inductive Err where
  | verr (missingRelation : Bool) (args0 : String)
  | valueError (args0 : String)
  | assertionFailed
deriving DecidableEq

deriving instance DecidableEq for Except

/-- State of the database together with the observable state of the
client process (call counters, fault injectors). -/
structure World where
  tableExists : Bool
  rows : List Row
  conns : List ConnInfo
  nextId : Nat
  connectCalls : Nat
  commitCalls : Nat
  selectFault : Option (Bool × String)
  insertFault : Option (Bool × String)
  createFault : Option String
deriving DecidableEq

/-- The fields stored by `VerticaTarget.__init__`. -/
structure VerticaTarget where
  host : String
  port : Int
  database : String
  user : String
  password : String
  table : String
  update_id : String
deriving DecidableEq

/-- Process-wide marker table name (the `vertica-export / marker-table`
configuration value, with its default). -/
def VerticaTarget.marker_table : String := "experimental.table_updates"

/-- Does `pat` occur at the head of `s`? -/
def seqLead : List Char → List Char → Bool
  | _, [] => true
  | [], _ :: _ => false
  | c :: cs, d :: ds => c == d && seqLead cs ds

/-- Does `pat` occur anywhere inside `s`? -/
def seqInside (s pat : List Char) : Bool :=
  match s with
  | [] => seqLead [] pat
  | c :: cs => seqLead (c :: cs) pat || seqInside cs pat

/-- Python substring containment `pat in s`. -/
def strContains (s pat : String) : Bool := seqInside s.data pat.data

/-- Python `str.split(sep)` for a one-character separator, on the
character list. -/
def splitOnChar (c : Char) : List Char → List (List Char)
  | [] => [[]]
  | d :: ds =>
    if d == c then [] :: splitOnChar c ds
    else
      match splitOnChar c ds with
      | [] => [[d]]
      | g :: gs => (d :: g) :: gs

/-- Python `host.split(":")`. -/
def pySplitColon (s : String) : List String :=
  (splitOnChar ':' s.data).map String.mk

/-- Strip leading and trailing whitespace, as Python `int` does before
parsing. -/
def pyStripChars (cs : List Char) : List Char :=
  ((cs.dropWhile Char.isWhitespace).reverse.dropWhile Char.isWhitespace).reverse

/-- Numeric value of a list of decimal digits. -/
def digitsVal (cs : List Char) : Nat :=
  cs.foldl (fun n c => n * 10 + (c.toNat - 48)) 0

/-- Python `int(s)`: optional surrounding whitespace, an optional sign,
then a non-empty run of decimal digits; anything else raises
`ValueError` (modelled as `none`). -/
def pyInt (s : String) : Option Int :=
  let cs := pyStripChars s.data
  let sg : Int :=
    match cs with
    | '-' :: _ => -1
    | _ => 1
  let ds :=
    match cs with
    | '-' :: rest => rest
    | '+' :: rest => rest
    | _ => cs
  if ds.isEmpty then none
  else if ds.all Char.isDigit then some (sg * (digitsVal ds : Int))
  else none

/-- The SQL state text Vertica embeds in a missing-relation error. -/
def sqlstate42V01 : String := "Sqlstate: 42V01"

/-- The SQL state text Vertica embeds in a duplicate-relation error. -/
def sqlstate42710 : String := "Sqlstate: 42710"

/-- Message of the error the database raises when a statement touches
the marker table while it does not exist. -/
def missingTableMsg : String := "Severity: ROLLBACK, Sqlstate: 42V01"

/-- Message of the error the database raises when CREATE TABLE hits an
existing relation. -/
def duplicateTableMsg : String := "Severity: ROLLBACK, Sqlstate: 42710"

/-- Message of the error raised when a statement is executed on a
connection that is closed or unknown. -/
def closedConnMsg : String := "connection is closed"

/-- Look a connection up by id. -/
def findConn (w : World) (cid : Nat) : Option ConnInfo :=
  w.conns.find? (fun ci => ci.id == cid)

/-- Apply `f` to the connection with id `cid`. -/
def updateConn (cid : Nat) (f : ConnInfo → ConnInfo) (w : World) : World :=
  { w with conns := w.conns.map (fun ci => if ci.id == cid then f ci else ci) }

/-- Python `connection.autocommit = b`. -/
def setAutocommit (cid : Nat) (b : Bool) (w : World) : World :=
  updateConn cid (fun ci => { ci with autocommit := b }) w

/-- Python `connection.close()`: the connection is closed and its
uncommitted work is rolled back. -/
def closeConn (cid : Nat) (w : World) : World :=
  updateConn cid (fun ci => { ci with isOpen := false, pending := [] }) w

/-- Python `connection.commit()`: the pending rows of the connection
become durable.  The embedded code never calls this itself; it exists so
that durability under a caller-issued commit can be stated. -/
def commitConn (cid : Nat) (w : World) : World :=
  { updateConn cid (fun ci => { ci with pending := [] }) w with
      rows := w.rows ++ (match findConn w cid with | some ci => ci.pending | none => []),
      commitCalls := w.commitCalls + 1 }

/-- Pending (uncommitted) rows of a connection. -/
def connPending (cid : Nat) (w : World) : List Row :=
  match findConn w cid with
  | some ci => ci.pending
  | none => []

/-- Is the connection open? -/
def connOpen (cid : Nat) (w : World) : Bool :=
  match findConn w cid with
  | some ci => ci.isOpen
  | none => false

/-- Autocommit flag of a connection. -/
def connAutocommit (cid : Nat) (w : World) : Bool :=
  match findConn w cid with
  | some ci => ci.autocommit
  | none => false

/-- Rows a SELECT on connection `cid` can see: committed rows plus the
rows this same connection has inserted but not committed. -/
def visibleRows (cid : Nat) (w : World) : List Row :=
  w.rows ++ connPending cid w

/-- Model of `vertica_python.connect(options)`: a fresh open connection with the
requested autocommit mode. -/
def VerticaTarget.connect (t : VerticaTarget) (autocommit : Bool) (w : World) : Nat × World :=
  (w.nextId,
   { w with
       conns := w.conns ++ [⟨w.nextId, autocommit, true, []⟩],
       nextId := w.nextId + 1,
       connectCalls := w.connectCalls + 1 })

/-- The `if connection is None: connection = self.connect();
connection.autocommit = True` idiom shared by `touch` and `exists`. -/
def getConnection (t : VerticaTarget) (conn : Option Nat) (w : World) : Nat × World :=
  match conn with
  | some c => (c, w)
  | none =>
      let p := t.connect false w
      (p.1, setAutocommit p.1 true p.2)

/-- Execution of the `SELECT 1 FROM marker_table WHERE update_id = %s
LIMIT 1` round trip, followed by `fetchone()`: the injected fault if one
is set, a missing-relation error when the marker table does not exist,
otherwise the first visible row with the given `update_id` (or `none`).
A SELECT changes no state. -/
def executeSelect (cid : Nat) (uid : String) (w : World) : Except Err (Option Row) :=
  match w.selectFault with
  | some (m, s) => .error (.verr m s)
  | none =>
      if w.tableExists then
        .ok ((visibleRows cid w).find? (fun r => r.1 == uid))
      else
        .error (.verr true missingTableMsg)

/-- Execution of the `INSERT INTO marker_table (update_id, target_table)
VALUES (%s, %s)` round trip: the injected fault if one is set, a
missing-relation error when the marker table does not exist, an error on
a closed or unknown connection; otherwise the row is appended — durably
when the connection is in autocommit mode, to the pending set of the
connection
rows otherwise. -/
def executeInsert (cid : Nat) (uid tbl : String) (w : World) : Except Err World :=
  match w.insertFault with
  | some (m, s) => .error (.verr m s)
  | none =>
      if w.tableExists then
        match findConn w cid with
        | some ci =>
            if ci.isOpen then
              if ci.autocommit then
                .ok { w with rows := w.rows ++ [(uid, tbl)] }
              else
                .ok (updateConn cid (fun c => { c with pending := c.pending ++ [(uid, tbl)] }) w)
            else .error (.verr false closedConnMsg)
        | none => .error (.verr false closedConnMsg)
      else .error (.verr true missingTableMsg)

/-- Execution of the `CREATE TABLE marker_table (...)` round trip on a
fresh autocommit connection: the injected fault if one is set, a
duplicate-relation error when the table already exists, otherwise the
table is created. -/
def executeCreate (w : World) : Except Err World :=
  match w.createFault with
  | some s => .error (.verr false s)
  | none =>
      if w.tableExists then .error (.verr false duplicateTableMsg)
      else .ok { w with tableExists := true }

/-- Model of `VerticaTarget.__init__(host, database, user, password, table,
update_id)`.  When `host` contains a colon it is split and the second
part is parsed as the port; otherwise the port defaults to 5433. -/
def VerticaTarget.init (host database user password table update_id : String) :
    Except Err VerticaTarget :=
  if host.data.any (fun d => d == ':') then
    match pySplitColon host with
    | [h, p] =>
        match pyInt p with
        | some n => .ok ⟨h, n, database, user, password, table, update_id⟩
        | none => .error (.valueError "invalid literal for int with base 10")
    | _ => .error (.valueError "too many values to unpack")
  else
    .ok ⟨host, 5433, database, user, password, table, update_id⟩

/-- Model of `VerticaTarget.create_marker_table(self)`: open a dedicated
autocommit connection, CREATE the marker table, suppress the error when
its message carries `Sqlstate: 42710` (table already exists), re-raise
any other error — note that `connection.close()` sits after the
`try/except` block, so it is skipped when the error is re-raised. -/
def VerticaTarget.create_marker_table (t : VerticaTarget) (w : World) :
    Except Err Unit × World :=
  let p := t.connect true w
  match executeCreate p.2 with
  | .ok w2 => (.ok (), closeConn p.1 w2)
  | .error (.verr m s) =>
      if strContains s sqlstate42710 then (.ok (), closeConn p.1 p.2)
      else (.error (.verr m s), p.2)
  | .error e => (.error e, p.2)

/-- Model of `VerticaTarget.exists(self, connection=None)`: run the SELECT on the
supplied connection (or on a fresh autocommit one), return whether a row
came back; a `vertica_python` error is absorbed as `False` exactly when
it is a `MissingRelation` by type or its message carries
`Sqlstate: 42V01`, and re-raised otherwise.  The result triple is
`(outcome, connection used, world)`. -/
def VerticaTarget.exists (t : VerticaTarget) (conn : Option Nat) (w : World) :
    Except Err Bool × Nat × World :=
  let p := getConnection t conn w
  match executeSelect p.1 t.update_id p.2 with
  | .ok row => (.ok row.isSome, p.1, p.2)
  | .error (.verr m s) =>
      if m || strContains s sqlstate42V01 then (.ok false, p.1, p.2)
      else (.error (.verr m s), p.1, p.2)
  | .error e => (.error e, p.1, p.2)

/-- Model of `VerticaTarget.touch(self, connection=None)`: create the marker
table, open a connection when none is supplied, INSERT the marker row,
then `assert self.exists(connection)`.  The result pair carries the id
of the connection the INSERT ran on. -/
def VerticaTarget.touch (t : VerticaTarget) (conn : Option Nat) (w : World) :
    Except Err Nat × World :=
  match t.create_marker_table w with
  | (.error e, w0) => (.error e, w0)
  | (.ok _, w0) =>
      let p := getConnection t conn w0
      match executeInsert p.1 t.update_id t.table p.2 with
      | .error e => (.error e, p.2)
      | .ok w2 =>
          match t.exists (some p.1) w2 with
          | (.ok b, _, w3) => if b then (.ok p.1, w3) else (.error .assertionFailed, w3)
          | (.error e, _, w3) => (.error e, w3)

/-- Well-formedness of a world: every connection id is below `nextId`,
so freshly opened connections never collide with existing ones. -/
def wfB (w : World) : Bool := w.conns.all (fun ci => ci.id < w.nextId)

/-- Did the call succeed? -/
def exceptOk {α : Type} (e : Except Err α) : Bool :=
  match e with
  | .ok _ => true
  | .error _ => false

/-- Number of marker rows carrying a given `update_id`. -/
def countFor (uid : String) (l : List Row) : Nat :=
  (l.filter (fun r => r.1 == uid)).length

/-- Fresh world: no marker table, no rows, no connections, no faults. -/
def w0 : World := ⟨false, [], [], 0, 0, 0, none, none, none⟩

/-- Concrete target used by the witnesses. -/
def t0 : VerticaTarget :=
  ⟨"vertica.example.com", 5433, "warehouse", "dbuser", "secret", "testing.report", "task-2024-01-01"⟩

/-- Fresh world whose next SELECT fails with a permission error. -/
def wPerm : World := { w0 with selectFault := some (false, "Severity: ERROR, permission denied") }

/-- Fresh world whose next CREATE TABLE fails with a non-duplicate error. -/
def wCreateBoom : World := { w0 with createFault := some "boom" }

/-- Fresh world whose next CREATE TABLE fails with a duplicate-relation error. -/
def wCreateDup : World := { w0 with createFault := some duplicateTableMsg }

/-- World with the marker table present whose next INSERT fails. -/
def wInsertBoom : World :=
  { w0 with tableExists := true, insertFault := some (false, "Severity: ERROR, network failure") }

/-- World with the marker table present and one open caller-owned
connection (id 0) that is not in autocommit mode. -/
def wBorrowed : World := ⟨true, [], [⟨0, false, true, []⟩], 1, 1, 0, none, none, none⟩

/-! ### List and connection-lookup infrastructure -/

theorem find_map_pred {α : Type} (p : α → Bool) (g : α → α) (l : List α)
    (hg : ∀ y, p (g y) = p y) : (l.map g).find? p = (l.find? p).map g := by
  induction l with
  | nil => rfl
  | cons a l ih =>
      by_cases hp : p a = true
      · rw [List.map_cons, List.find?_cons_of_pos _ (by rw [hg]; exact hp),
          List.find?_cons_of_pos _ hp]
        rfl
      · rw [List.map_cons, List.find?_cons_of_neg _ (by rw [hg]; exact hp),
          List.find?_cons_of_neg _ hp]
        exact ih

theorem wfB_iff (w : World) : wfB w = true ↔ ∀ ci ∈ w.conns, ci.id < w.nextId := by
  simp [wfB, List.all_eq_true]

theorem findConn_connect_old (t : VerticaTarget) (b : Bool) (w : World) (c : Nat) (x : ConnInfo)
    (h : findConn w c = some x) : findConn (t.connect b w).2 c = some x := by
  simp only [VerticaTarget.connect, findConn] at h ⊢
  rw [List.find?_append, h]
  rfl

theorem findConn_connect_fresh (t : VerticaTarget) (b : Bool) (w : World) (hwf : wfB w = true) :
    findConn (t.connect b w).2 w.nextId = some ⟨w.nextId, b, true, []⟩ := by
  simp only [VerticaTarget.connect, findConn]
  rw [List.find?_append]
  have h1 : w.conns.find? (fun ci => ci.id == w.nextId) = none := by
    rw [List.find?_eq_none]
    intro x hx
    have hlt := (wfB_iff w).1 hwf x hx
    simp
    omega
  rw [h1]
  simp

theorem findConn_updateConn_self (cid : Nat) (f : ConnInfo → ConnInfo) (w : World) (x : ConnInfo)
    (hf : ∀ y, (f y).id = y.id) (h : findConn w cid = some x) :
    findConn (updateConn cid f w) cid = some (f x) := by
  simp only [findConn, updateConn] at h ⊢
  rw [find_map_pred _ _ _ (fun y => by cases hyc : y.id == cid <;> simp [hyc, hf]), h]
  have hx : x.id = cid := by
    have hp := List.find?_some h
    simpa using hp
  simp [hx]

theorem findConn_updateConn_ne (cid d : Nat) (f : ConnInfo → ConnInfo) (w : World)
    (hf : ∀ y, (f y).id = y.id) (hne : d ≠ cid) :
    findConn (updateConn cid f w) d = findConn w d := by
  simp only [findConn, updateConn]
  rw [find_map_pred _ _ _ (fun y => by cases hyc : y.id == cid <;> simp [hyc, hf])]
  cases h : w.conns.find? (fun ci => ci.id == d) with
  | none => rfl
  | some x =>
      have hx : (x.id == d) = true := by
        have hp := List.find?_some h
        simpa using hp
      simp at hx
      simp [hx, hne]

theorem wf_connect (t : VerticaTarget) (b : Bool) (w : World) (hwf : wfB w = true) :
    wfB (t.connect b w).2 = true := by
  rw [wfB_iff] at hwf ⊢
  simp only [VerticaTarget.connect]
  intro ci hci
  rcases List.mem_append.1 hci with h | h
  · exact Nat.lt_succ_of_lt (hwf ci h)
  · simp at h
    subst h
    exact Nat.lt_succ_self w.nextId

theorem wf_updateConn (cid : Nat) (f : ConnInfo → ConnInfo) (w : World)
    (hf : ∀ y, (f y).id = y.id) (hwf : wfB w = true) :
    wfB (updateConn cid f w) = true := by
  rw [wfB_iff] at hwf ⊢
  simp only [updateConn]
  intro ci hci
  simp only [List.mem_map] at hci
  obtain ⟨y, hy, hyeq⟩ := hci
  subst hyeq
  cases hyc : y.id == cid <;> simp [hyc, hf] <;> exact hwf y hy

/-! ### Behaviour of `create_marker_table` -/

theorem duplicate42710 : strContains duplicateTableMsg sqlstate42710 = true := by decide

theorem missing42V01 : strContains missingTableMsg sqlstate42V01 = true := by decide

theorem create_fields (t : VerticaTarget) (w : World) :
    (t.create_marker_table w).2.rows = w.rows
    ∧ (t.create_marker_table w).2.commitCalls = w.commitCalls
    ∧ (t.create_marker_table w).2.nextId = w.nextId + 1
    ∧ (t.create_marker_table w).2.connectCalls = w.connectCalls + 1
    ∧ (t.create_marker_table w).2.selectFault = w.selectFault
    ∧ (t.create_marker_table w).2.insertFault = w.insertFault
    ∧ (t.create_marker_table w).2.createFault = w.createFault := by
  cases hc : w.createFault with
  | some s =>
      by_cases h42 : strContains s sqlstate42710 = true <;>
        simp [VerticaTarget.create_marker_table, executeCreate, VerticaTarget.connect,
          closeConn, updateConn, hc, h42]
  | none =>
      by_cases hT : w.tableExists = true <;>
        simp [VerticaTarget.create_marker_table, executeCreate, VerticaTarget.connect,
          closeConn, updateConn, hc, hT, duplicate42710]

theorem create_ok_of_none (t : VerticaTarget) (w : World) (hc : w.createFault = none) :
    (t.create_marker_table w).1 = .ok ()
    ∧ (t.create_marker_table w).2.tableExists = true := by
  by_cases hT : w.tableExists = true <;>
    simp [VerticaTarget.create_marker_table, executeCreate, VerticaTarget.connect,
      closeConn, updateConn, hc, hT, duplicate42710]

theorem create_fault_suppressed (t : VerticaTarget) (w : World) (s : String)
    (hc : w.createFault = some s) (h42 : strContains s sqlstate42710 = true) :
    (t.create_marker_table w).1 = .ok () := by
  simp [VerticaTarget.create_marker_table, executeCreate, VerticaTarget.connect, hc, h42]

theorem create_fault_raised (t : VerticaTarget) (w : World) (s : String)
    (hc : w.createFault = some s) (h42 : strContains s sqlstate42710 = false) :
    (t.create_marker_table w).1 = .error (.verr false s)
    ∧ (t.create_marker_table w).2 = (t.connect true w).2 := by
  simp only [VerticaTarget.create_marker_table, executeCreate, VerticaTarget.connect]
  simp [hc, h42]

theorem create_error_iff (t : VerticaTarget) (w : World) :
    (∃ e, (t.create_marker_table w).1 = .error e) ↔
      (∃ s, w.createFault = some s ∧ strContains s sqlstate42710 = false) := by
  cases hc : w.createFault with
  | some s =>
      by_cases h42 : strContains s sqlstate42710 = true <;>
        simp [VerticaTarget.create_marker_table, executeCreate, VerticaTarget.connect, hc, h42]
  | none =>
      by_cases hT : w.tableExists = true <;>
        simp [VerticaTarget.create_marker_table, executeCreate, VerticaTarget.connect, hc, hT,
          duplicate42710]

theorem findConn_closeConn_ne (cid d : Nat) (w : World) (hne : d ≠ cid) :
    findConn (closeConn cid w) d = findConn w d := by
  simp only [closeConn]
  exact findConn_updateConn_ne cid d _ w (fun y => rfl) hne

theorem findConn_closeConn_self (cid : Nat) (w : World) (x : ConnInfo)
    (h : findConn w cid = some x) :
    findConn (closeConn cid w) cid = some { x with isOpen := false, pending := [] } := by
  simp only [closeConn]
  exact findConn_updateConn_self cid _ w x (fun y => rfl) h

theorem findConn_setAutocommit_ne (cid d : Nat) (b : Bool) (w : World) (hne : d ≠ cid) :
    findConn (setAutocommit cid b w) d = findConn w d := by
  simp only [setAutocommit]
  exact findConn_updateConn_ne cid d _ w (fun y => rfl) hne

theorem findConn_setAutocommit_self (cid : Nat) (b : Bool) (w : World) (x : ConnInfo)
    (h : findConn w cid = some x) :
    findConn (setAutocommit cid b w) cid = some { x with autocommit := b } := by
  simp only [setAutocommit]
  exact findConn_updateConn_self cid _ w x (fun y => rfl) h

theorem wf_closeConn (cid : Nat) (w : World) (hwf : wfB w = true) :
    wfB (closeConn cid w) = true := by
  simp only [closeConn]
  exact wf_updateConn cid _ w (fun y => rfl) hwf

theorem wf_setAutocommit (cid : Nat) (b : Bool) (w : World) (hwf : wfB w = true) :
    wfB (setAutocommit cid b w) = true := by
  simp only [setAutocommit]
  exact wf_updateConn cid _ w (fun y => rfl) hwf

theorem create_cases (t : VerticaTarget) (w : World) :
    t.create_marker_table w =
      match w.createFault with
      | some s =>
          if strContains s sqlstate42710 then (.ok (), closeConn w.nextId (t.connect true w).2)
          else (.error (.verr false s), (t.connect true w).2)
      | none =>
          if w.tableExists then (.ok (), closeConn w.nextId (t.connect true w).2)
          else
            (.ok (), closeConn w.nextId { (t.connect true w).2 with tableExists := true }) := by
  cases hc : w.createFault with
  | some s =>
      by_cases h42 : strContains s sqlstate42710 = true <;>
        simp [VerticaTarget.create_marker_table, executeCreate, VerticaTarget.connect, hc, h42]
  | none =>
      by_cases hT : w.tableExists = true <;>
        simp [VerticaTarget.create_marker_table, executeCreate, VerticaTarget.connect, hc, hT,
          duplicate42710]

theorem wf_tableSet (w : World) (b : Bool) (hwf : wfB w = true) :
    wfB { w with tableExists := b } = true := by
  rw [wfB_iff] at hwf ⊢
  exact hwf

theorem wf_create (t : VerticaTarget) (w : World) (hwf : wfB w = true) :
    wfB (t.create_marker_table w).2 = true := by
  have hwf1 : wfB (t.connect true w).2 = true := wf_connect t true w hwf
  rw [create_cases]
  cases hc : w.createFault with
  | some s =>
      by_cases h42 : strContains s sqlstate42710 = true <;> simp [h42]
      · exact wf_closeConn _ _ hwf1
      · exact hwf1
  | none =>
      by_cases hT : w.tableExists = true <;> simp [hT]
      · exact wf_closeConn _ _ hwf1
      · exact wf_closeConn _ _ (wf_tableSet _ true hwf1)

theorem create_findConn (t : VerticaTarget) (w : World) (c : Nat) (x : ConnInfo)
    (hwf : wfB w = true) (h : findConn w c = some x) :
    findConn (t.create_marker_table w).2 c = some x := by
  have hlt : c < w.nextId := by
    have hmem := List.mem_of_find?_eq_some h
    have hp : x.id = c := by
      have hq := List.find?_some h
      simpa using hq
    have := (wfB_iff w).1 hwf x hmem
    omega
  have hne : c ≠ w.nextId := by omega
  have h1 : findConn (t.connect true w).2 c = some x := findConn_connect_old t true w c x h
  have h2 : findConn { (t.connect true w).2 with tableExists := true } c = some x := by
    simpa [findConn] using h1
  rw [create_cases]
  cases hc : w.createFault with
  | some s =>
      by_cases h42 : strContains s sqlstate42710 = true <;> simp [h42]
      · rw [findConn_closeConn_ne _ _ _ hne]
        exact h1
      · exact h1
  | none =>
      by_cases hT : w.tableExists = true <;> simp [hT]
      · rw [findConn_closeConn_ne _ _ _ hne]
        exact h1
      · rw [findConn_closeConn_ne _ _ _ hne]
        exact h2

/-! ### Behaviour of `exists` -/

theorem getConnection_fields (t : VerticaTarget) (conn : Option Nat) (w : World) :
    (getConnection t conn w).2.selectFault = w.selectFault
    ∧ (getConnection t conn w).2.insertFault = w.insertFault
    ∧ (getConnection t conn w).2.createFault = w.createFault
    ∧ (getConnection t conn w).2.tableExists = w.tableExists
    ∧ (getConnection t conn w).2.rows = w.rows
    ∧ (getConnection t conn w).2.commitCalls = w.commitCalls := by
  cases conn <;> simp [getConnection, VerticaTarget.connect, setAutocommit, updateConn]

theorem exists_some_frame (t : VerticaTarget) (c : Nat) (w : World) :
    (t.exists (some c) w).2.1 = c ∧ (t.exists (some c) w).2.2 = w := by
  simp only [VerticaTarget.exists, getConnection]
  rcases h : executeSelect c t.update_id w with e | row
  · rcases e with ⟨m, s⟩ | s | _ <;> simp [h] <;> split <;> simp
  · simp [h]

theorem exists_error_iff (t : VerticaTarget) (conn : Option Nat) (w : World) :
    (∃ e, (t.exists conn w).1 = .error e) ↔
      (∃ m s, w.selectFault = some (m, s) ∧ m = false
        ∧ strContains s sqlstate42V01 = false) := by
  have hsf := (getConnection_fields t conn w).1
  simp only [VerticaTarget.exists]
  cases hf : w.selectFault with
  | some ms =>
      obtain ⟨m, s⟩ := ms
      rw [hf] at hsf
      simp only [executeSelect, hsf]
      cases m
      · by_cases h42 : strContains s sqlstate42V01 = true <;> simp [h42]
      · simp
  | none =>
      rw [hf] at hsf
      simp only [executeSelect, hsf]
      by_cases hT : (getConnection t conn w).2.tableExists = true <;>
        simp [hT, missing42V01]

theorem exists_missing_table (t : VerticaTarget) (conn : Option Nat) (w : World)
    (hs : w.selectFault = none) (hT : w.tableExists = false) :
    t.exists conn w = (.ok false, (getConnection t conn w).1, (getConnection t conn w).2) := by
  have hsf := (getConnection_fields t conn w).1
  have hTT := (getConnection_fields t conn w).2.2.2.1
  rw [hs] at hsf
  rw [hT] at hTT
  simp [VerticaTarget.exists, executeSelect, hsf, hTT, missing42V01]

theorem exists_no_row (t : VerticaTarget) (conn : Option Nat) (w : World)
    (hs : w.selectFault = none) (hT : w.tableExists = true)
    (hnone : ∀ r ∈ visibleRows (getConnection t conn w).1 (getConnection t conn w).2,
      r.1 ≠ t.update_id) :
    t.exists conn w = (.ok false, (getConnection t conn w).1, (getConnection t conn w).2) := by
  have hsf := (getConnection_fields t conn w).1
  have hTT := (getConnection_fields t conn w).2.2.2.1
  rw [hs] at hsf
  rw [hT] at hTT
  have hfind : (visibleRows (getConnection t conn w).1 (getConnection t conn w).2).find?
      (fun r => r.1 == t.update_id) = none := by
    rw [List.find?_eq_none]
    intro x hx
    simpa using hnone x hx
  simp [VerticaTarget.exists, executeSelect, hsf, hTT, hfind]

theorem exists_found_some (t : VerticaTarget) (c : Nat) (w : World)
    (hs : w.selectFault = none) (hT : w.tableExists = true)
    (hfind : ((visibleRows c w).find? (fun r => r.1 == t.update_id)).isSome = true) :
    t.exists (some c) w = (.ok true, c, w) := by
  simp [VerticaTarget.exists, getConnection, executeSelect, hs, hT, hfind]

/-! ### Behaviour of `touch` -/

theorem touch_create_error (t : VerticaTarget) (conn : Option Nat) (w : World) (e : Err)
    (h : (t.create_marker_table w).1 = .error e) :
    t.touch conn w = (.error e, (t.create_marker_table w).2) := by
  simp only [VerticaTarget.touch]
  rcases hcm : t.create_marker_table w with ⟨r, w0⟩
  rw [hcm] at h
  simp at h
  subst h
  simp

theorem touch_insert_error (t : VerticaTarget) (conn : Option Nat) (w : World) (e : Err)
    (hok : (t.create_marker_table w).1 = .ok ())
    (hins : executeInsert (getConnection t conn (t.create_marker_table w).2).1 t.update_id
      t.table (getConnection t conn (t.create_marker_table w).2).2 = .error e) :
    t.touch conn w =
      (.error e, (getConnection t conn (t.create_marker_table w).2).2) := by
  simp only [VerticaTarget.touch]
  rcases hcm : t.create_marker_table w with ⟨r, w0⟩
  rw [hcm] at hok hins
  simp at hok
  subst hok
  simp only
  rw [hins]

theorem touch_ok_exists_helper (t : VerticaTarget) (conn : Option Nat) (w : World) (c : Nat)
    (h : (t.touch conn w).1 = .ok c) :
    t.exists (some c) (t.touch conn w).2 = (.ok true, c, (t.touch conn w).2) := by
  rcases htc : t.touch conn w with ⟨r, wt⟩
  rw [htc] at h
  simp at h
  subst h
  simp only [VerticaTarget.touch] at htc
  rcases hcm : t.create_marker_table w with ⟨rc, w0⟩
  rw [hcm] at htc
  cases rc with
  | error e => simp at htc
  | ok u =>
      simp only at htc
      rcases hins : executeInsert (getConnection t conn w0).1 t.update_id t.table
          (getConnection t conn w0).2 with e | w2
      · rw [hins] at htc
        simp at htc
      · rw [hins] at htc
        simp only at htc
        rcases hex : t.exists (some (getConnection t conn w0).1) w2 with ⟨res, cid2, w3⟩
        have hframe := exists_some_frame t (getConnection t conn w0).1 w2
        rw [hex] at htc hframe
        simp at hframe
        obtain ⟨hcid2, hw3⟩ := hframe
        cases res with
        | error e => simp at htc
        | ok b =>
            cases b with
            | false => simp at htc
            | true =>
                simp at htc
                obtain ⟨hc, hwt⟩ := htc
                subst hc
                subst hwt
                rw [hw3] at hex ⊢
                rw [hex]
                simp [hcid2]

theorem executeInsert_autocommit (c : Nat) (uid tbl : String) (W : World) (ci : ConnInfo)
    (hi : W.insertFault = none) (hT : W.tableExists = true)
    (hf : findConn W c = some ci) (ho : ci.isOpen = true) (ha : ci.autocommit = true) :
    executeInsert c uid tbl W = .ok { W with rows := W.rows ++ [(uid, tbl)] } := by
  simp [executeInsert, hi, hT, hf, ho, ha]

theorem executeInsert_pending (c : Nat) (uid tbl : String) (W : World) (ci : ConnInfo)
    (hi : W.insertFault = none) (hT : W.tableExists = true)
    (hf : findConn W c = some ci) (ho : ci.isOpen = true) (ha : ci.autocommit = false) :
    executeInsert c uid tbl W =
      .ok (updateConn c (fun x => { x with pending := x.pending ++ [(uid, tbl)] }) W) := by
  simp [executeInsert, hi, hT, hf, ho, ha]

theorem find_append_last_isSome {α : Type} (p : α → Bool) (l : List α) (x : α)
    (hx : p x = true) : ((l ++ [x]).find? p).isSome = true := by
  rw [List.find?_append]
  cases h : l.find? p <;> simp [h, hx]

theorem getConnection_some (t : VerticaTarget) (c : Nat) (W : World) :
    getConnection t (some c) W = (c, W) := rfl

theorem touch_none_spec (t : VerticaTarget) (w : World)
    (hwf : wfB w = true) (hs : w.selectFault = none) (hi : w.insertFault = none)
    (hc : w.createFault = none) :
    (t.touch none w).1 = .ok (w.nextId + 1)
    ∧ (t.touch none w).2.rows = w.rows ++ [(t.update_id, t.table)]
    ∧ (t.touch none w).2.nextId = w.nextId + 2
    ∧ (t.touch none w).2.selectFault = none
    ∧ (t.touch none w).2.insertFault = none
    ∧ (t.touch none w).2.createFault = none
    ∧ (t.touch none w).2.tableExists = true
    ∧ wfB (t.touch none w).2 = true := by
  obtain ⟨hok, hT0⟩ := create_ok_of_none t w hc
  obtain ⟨hrows0, hcommit0, hnext0, hcc0, hsf0, hif0, hcf0⟩ := create_fields t w
  have hwf0 : wfB (t.create_marker_table w).2 = true := wf_create t w hwf
  set w0 := (t.create_marker_table w).2 with hw0def
  have hcm : t.create_marker_table w = (Except.ok (), w0) := Prod.ext hok rfl
  have hgc : getConnection t none w0 =
      (w0.nextId, setAutocommit w0.nextId true (t.connect false w0).2) := rfl
  have hfresh : findConn (t.connect false w0).2 w0.nextId =
      some ⟨w0.nextId, false, true, []⟩ := findConn_connect_fresh t false w0 hwf0
  have hfind : findConn (setAutocommit w0.nextId true (t.connect false w0).2) w0.nextId
      = some ⟨w0.nextId, true, true, []⟩ := by
    have h := findConn_setAutocommit_self w0.nextId true (t.connect false w0).2 _ hfresh
    simpa using h
  have hP2 : (setAutocommit w0.nextId true (t.connect false w0).2).insertFault = w0.insertFault
      ∧ (setAutocommit w0.nextId true (t.connect false w0).2).tableExists = w0.tableExists
      ∧ (setAutocommit w0.nextId true (t.connect false w0).2).selectFault = w0.selectFault
      ∧ (setAutocommit w0.nextId true (t.connect false w0).2).createFault = w0.createFault
      ∧ (setAutocommit w0.nextId true (t.connect false w0).2).rows = w0.rows
      ∧ (setAutocommit w0.nextId true (t.connect false w0).2).nextId = w0.nextId + 1 := by
    simp [setAutocommit, updateConn, VerticaTarget.connect]
  set P2 := setAutocommit w0.nextId true (t.connect false w0).2 with hP2def
  have hins : executeInsert w0.nextId t.update_id t.table P2
      = .ok { P2 with rows := P2.rows ++ [(t.update_id, t.table)] } := by
    refine executeInsert_autocommit w0.nextId t.update_id t.table P2 ⟨w0.nextId, true, true, []⟩
      ?_ ?_ hfind rfl rfl
    · rw [hP2.1, hif0, hi]
    · rw [hP2.2.1, hT0]
  set w2 : World := { P2 with rows := P2.rows ++ [(t.update_id, t.table)] } with hw2def
  have hfind2 : findConn w2 w0.nextId = some ⟨w0.nextId, true, true, []⟩ := by
    simpa [findConn, hw2def] using hfind
  have hvis : visibleRows w0.nextId w2 = P2.rows ++ [(t.update_id, t.table)] := by
    simp [visibleRows, connPending, hfind2, hw2def]
  have hfs : ((visibleRows w0.nextId w2).find? (fun r => r.1 == t.update_id)).isSome = true := by
    rw [hvis]
    exact find_append_last_isSome _ _ _ (by simp)
  have hsel2 : w2.selectFault = none := by
    rw [hw2def]
    show P2.selectFault = none
    rw [hP2.2.2.1, hsf0, hs]
  have hT2 : w2.tableExists = true := by
    rw [hw2def]
    show P2.tableExists = true
    rw [hP2.2.1, hT0]
  have hex := exists_found_some t w0.nextId w2 hsel2 hT2 hfs
  have htch : t.touch none w = (.ok w0.nextId, w2) := by
    simp only [VerticaTarget.touch]
    rw [hcm]
    simp only
    rw [hgc]
    simp only
    rw [hins]
    simp only
    rw [hex]
    simp
  rw [htch]
  have hrows2 : w2.rows = w.rows ++ [(t.update_id, t.table)] := by
    rw [hw2def]
    show P2.rows ++ [(t.update_id, t.table)] = w.rows ++ [(t.update_id, t.table)]
    rw [hP2.2.2.2.2.1, hrows0]
  have hnext2 : w2.nextId = w.nextId + 2 := by
    rw [hw2def]
    show P2.nextId = w.nextId + 2
    rw [hP2.2.2.2.2.2, hnext0]
  have hwf2 : wfB w2 = true := by
    have hwfP2 : wfB P2 = true :=
      wf_setAutocommit _ _ _ (wf_connect t false w0 hwf0)
    rw [wfB_iff] at hwfP2 ⊢
    exact hwfP2
  refine ⟨by rw [hnext0], hrows2, hnext2, hsel2, ?_, ?_, hT2, hwf2⟩
  · rw [hw2def]
    show P2.insertFault = none
    rw [hP2.1, hif0, hi]
  · rw [hw2def]
    show P2.createFault = none
    rw [hP2.2.2.2.1, hcf0, hc]

/-! ### Inversion of a successful INSERT and the borrowed-connection frame -/

theorem executeInsert_ok_inv (c : Nat) (uid tbl : String) (W w2 : World)
    (h : executeInsert c uid tbl W = .ok w2) :
    W.insertFault = none ∧ W.tableExists = true ∧
    ∃ ci, findConn W c = some ci ∧ ci.isOpen = true ∧
      ((ci.autocommit = true ∧ w2 = { W with rows := W.rows ++ [(uid, tbl)] })
       ∨ (ci.autocommit = false
          ∧ w2 = updateConn c (fun x => { x with pending := x.pending ++ [(uid, tbl)] }) W)) := by
  unfold executeInsert at h
  split at h
  · exact absurd h (by simp)
  · rename_i hfa
    split at h
    · rename_i hT
      split at h
      · rename_i ci hfc
        split at h
        · rename_i hio
          split at h
          · rename_i hac
            simp at h
            exact ⟨hfa, hT, ci, hfc, hio, Or.inl ⟨hac, h.symm⟩⟩
          · rename_i hac
            simp only [Bool.not_eq_true] at hac
            simp at h
            exact ⟨hfa, hT, ci, hfc, hio, Or.inr ⟨hac, h.symm⟩⟩
        · exact absurd h (by simp)
      · exact absurd h (by simp)
    · exact absurd h (by simp)

theorem touch_insert_ok_world (t : VerticaTarget) (conn : Option Nat) (w : World) (w2 : World)
    (hok : (t.create_marker_table w).1 = .ok ())
    (hins : executeInsert (getConnection t conn (t.create_marker_table w).2).1 t.update_id
      t.table (getConnection t conn (t.create_marker_table w).2).2 = .ok w2) :
    (t.touch conn w).2 = w2
    ∧ ((t.touch conn w).1 = .ok (getConnection t conn (t.create_marker_table w).2).1
        ∨ ∃ e, (t.touch conn w).1 = .error e) := by
  have hcm : t.create_marker_table w = (Except.ok (), (t.create_marker_table w).2) :=
    Prod.ext hok rfl
  simp only [VerticaTarget.touch]
  rw [hcm]
  simp only
  rw [hins]
  simp only
  rcases hex : t.exists (some (getConnection t conn (t.create_marker_table w).2).1) w2
    with ⟨res, cid2, w3⟩
  have hframe := exists_some_frame t (getConnection t conn (t.create_marker_table w).2).1 w2
  rw [hex] at hframe
  simp at hframe
  cases res with
  | error e => simp [hframe.2]
  | ok b =>
      cases b with
      | false => simp [hframe.2]
      | true => simp [hframe.2]

theorem touch_some_frame (t : VerticaTarget) (c : Nat) (w : World) (ci : ConnInfo)
    (hwf : wfB w = true) (hfc : findConn w c = some ci) :
    ∃ cj : ConnInfo, findConn (t.touch (some c) w).2 c = some cj
      ∧ cj.autocommit = ci.autocommit
      ∧ cj.isOpen = ci.isOpen
      ∧ (t.touch (some c) w).2.commitCalls = w.commitCalls
      ∧ (ci.autocommit = false → (t.touch (some c) w).2.rows = w.rows)
      ∧ (ci.autocommit = false → (t.touch (some c) w).1 = .ok c →
          cj.pending = ci.pending ++ [(t.update_id, t.table)]) := by
  have hfc0 : findConn (t.create_marker_table w).2 c = some ci :=
    create_findConn t w c ci hwf hfc
  obtain ⟨hrows0, hcommit0, hnext0, hcc0, hsf0, hif0, hcf0⟩ := create_fields t w
  cases hrc : (t.create_marker_table w).1 with
  | error e =>
      rw [touch_create_error t (some c) w e hrc]
      exact ⟨ci, hfc0, rfl, rfl, hcommit0, fun _ => hrows0, fun _ hok => by simp at hok⟩
  | ok u =>
      have hok : (t.create_marker_table w).1 = .ok () := by rw [hrc]
      cases hins : executeInsert c t.update_id t.table (t.create_marker_table w).2 with
      | error e =>
          rw [touch_insert_error t (some c) w e hok hins]
          exact ⟨ci, hfc0, rfl, rfl, hcommit0, fun _ => hrows0, fun _ hok2 => by simp at hok2⟩
      | ok w2 =>
          obtain ⟨hw2, _⟩ := touch_insert_ok_world t (some c) w w2 hok hins
          rw [hw2]
          obtain ⟨hif, hT, cx, hfcx, hio, hbranch⟩ :=
            executeInsert_ok_inv c t.update_id t.table (t.create_marker_table w).2 w2 hins
          have hx : cx = ci := by
            rw [hfc0] at hfcx
            exact (Option.some_inj.1 hfcx).symm
          subst hx
          rcases hbranch with ⟨hac, hw2eq⟩ | ⟨hac, hw2eq⟩
          · subst hw2eq
            refine ⟨cx, ?_, rfl, rfl, hcommit0, ?_, fun h _ => ?_⟩
            · simpa [findConn] using hfc0
            · intro h
              rw [h] at hac
              simp at hac
            · rw [h] at hac
              simp at hac
          · subst hw2eq
            refine ⟨{ cx with pending := cx.pending ++ [(t.update_id, t.table)] }, ?_, rfl, rfl,
              ?_, ?_, fun _ _ => rfl⟩
            · exact findConn_updateConn_self c _ _ cx (fun y => rfl) hfc0
            · simp [updateConn, hcommit0]
            · intro h
              simp [updateConn, hrows0]

theorem commitConn_rows (c : Nat) (W : World) :
    (commitConn c W).rows = W.rows ++ connPending c W := rfl

theorem touch_connectCalls (t : VerticaTarget) (conn : Option Nat) (w : World) :
    w.connectCalls + 1 ≤ (t.touch conn w).2.connectCalls := by
  have hcc0 := (create_fields t w).2.2.2.1
  have hgc : (t.create_marker_table w).2.connectCalls
      ≤ (getConnection t conn (t.create_marker_table w).2).2.connectCalls := by
    cases conn <;> simp [getConnection, VerticaTarget.connect, setAutocommit, updateConn]
  cases hrc : (t.create_marker_table w).1 with
  | error e =>
      rw [touch_create_error t conn w e hrc]
      show w.connectCalls + 1 ≤ (t.create_marker_table w).2.connectCalls
      omega
  | ok u =>
      have hok : (t.create_marker_table w).1 = .ok () := by rw [hrc]
      cases hins : executeInsert (getConnection t conn (t.create_marker_table w).2).1 t.update_id
          t.table (getConnection t conn (t.create_marker_table w).2).2 with
      | error e =>
          rw [touch_insert_error t conn w e hok hins]
          show w.connectCalls + 1
            ≤ (getConnection t conn (t.create_marker_table w).2).2.connectCalls
          omega
      | ok w2 =>
          obtain ⟨hw2, _⟩ := touch_insert_ok_world t conn w w2 hok hins
          rw [hw2]
          obtain ⟨hif, hT, cx, hfcx, hio, hbranch⟩ :=
            executeInsert_ok_inv _ t.update_id t.table _ w2 hins
          rcases hbranch with ⟨hac, hw2eq⟩ | ⟨hac, hw2eq⟩ <;> subst hw2eq <;>
            simp [updateConn] <;> omega

/-! ### Host parsing -/

theorem splitOnChar_ne_nil (c : Char) (l : List Char) : splitOnChar c l ≠ [] := by
  cases l with
  | nil => simp [splitOnChar]
  | cons d ds =>
      by_cases hdc : (d == c) = true
      · simp [splitOnChar, hdc]
      · simp only [splitOnChar, hdc, if_false, Bool.false_eq_true]
        cases hsp : splitOnChar c ds <;> simp

theorem any_colon_of_split (c : Char) (l : List Char)
    (h : 1 < (splitOnChar c l).length) : l.any (fun d => d == c) = true := by
  induction l with
  | nil => simp [splitOnChar] at h
  | cons d ds ih =>
      by_cases hdc : (d == c) = true
      · simp [hdc]
      · simp only [splitOnChar, hdc, if_false, Bool.false_eq_true] at h
        have hne := splitOnChar_ne_nil c ds
        cases hsp : splitOnChar c ds with
        | nil => exact absurd hsp hne
        | cons g gs =>
            rw [hsp] at h
            simp only [List.length_cons] at h
            have hlen : 1 < (splitOnChar c ds).length := by
              rw [hsp]
              simpa using h
            simp [hdc, ih hlen]

theorem pySplit_len (s : String) : (pySplitColon s).length = (splitOnChar ':' s.data).length := by
  simp [pySplitColon]

theorem any_colon_of_parts (host : String) (hlen : 1 < (pySplitColon host).length) :
    host.data.any (fun d => d == ':') = true := by
  apply any_colon_of_split
  rw [← pySplit_len]
  exact hlen

theorem countFor_append_self (uid tbl : String) (l : List Row) :
    countFor uid (l ++ [(uid, tbl)]) = countFor uid l + 1 := by
  simp [countFor, List.filter_append]

/-! ### Claims -/

/-- C1: for every updateID and every connection, if `touch` returns
successfully then `exists`, called with the same connection immediately
after the INSERT (i.e. in the state `touch` left behind, which the
SELECT does not change), returns true; `touch` never returns
successfully when that self-check fails. -/
theorem C1_touch_self_check (t : VerticaTarget) (conn : Option Nat) (w : World) (c : Nat)
    (h : (t.touch conn w).1 = .ok c) :
    t.exists (some c) (t.touch conn w).2 = (.ok true, c, (t.touch conn w).2) :=
  touch_ok_exists_helper t conn w c h

theorem C1_witness :
    (t0.touch none w0).1 = .ok 1
    ∧ t0.exists (some 1) (t0.touch none w0).2 = (.ok true, 1, (t0.touch none w0).2) :=
  ⟨by decide, C1_touch_self_check t0 none w0 1 (by decide)⟩

/-- C2: `exists` raises an error iff the SELECT fails with an error that
is neither a `MissingRelation` by type nor carries `Sqlstate: 42V01` in
its text; a missing marker table, or a table with no row for this
`update_id`, yields `false` with no error. -/
theorem C2_exists_error_classification (t : VerticaTarget) (conn : Option Nat) (w : World) :
    ((∃ e, (t.exists conn w).1 = .error e) ↔
      (∃ m s, w.selectFault = some (m, s) ∧ m = false
        ∧ strContains s sqlstate42V01 = false))
    ∧ (w.selectFault = none → w.tableExists = false →
        t.exists conn w = (.ok false, (getConnection t conn w).1, (getConnection t conn w).2))
    ∧ (w.selectFault = none → w.tableExists = true →
        (∀ r ∈ visibleRows (getConnection t conn w).1 (getConnection t conn w).2,
          r.1 ≠ t.update_id) →
        t.exists conn w = (.ok false, (getConnection t conn w).1, (getConnection t conn w).2)) :=
  ⟨exists_error_iff t conn w, exists_missing_table t conn w, exists_no_row t conn w⟩

theorem C2_witness :
    t0.exists none w0 = (.ok false, (getConnection t0 none w0).1, (getConnection t0 none w0).2)
    ∧ (∃ e, (t0.exists none wPerm).1 = .error e) :=
  ⟨(C2_exists_error_classification t0 none w0).2.1 rfl rfl,
   (C2_exists_error_classification t0 none wPerm).1.2
     ⟨false, "Severity: ERROR, permission denied", rfl, rfl, by decide⟩⟩

/-- C3: `create_marker_table` is idempotent: with no injected fault both
of two consecutive calls succeed (the duplicate-relation
error is suppressed); a CREATE failure whose text carries
`Sqlstate: 42710` is suppressed, any other CREATE failure propagates. -/
theorem C3_create_idempotent (t : VerticaTarget) (w : World) :
    (w.createFault = none →
      exceptOk (t.create_marker_table w).1 = true
      ∧ exceptOk (t.create_marker_table (t.create_marker_table w).2).1 = true)
    ∧ (∀ s, w.createFault = some s → strContains s sqlstate42710 = true →
        (t.create_marker_table w).1 = .ok ())
    ∧ (∀ s, w.createFault = some s → strContains s sqlstate42710 = false →
        (t.create_marker_table w).1 = .error (.verr false s)) := by
  refine ⟨fun hc => ⟨?_, ?_⟩, fun s hc h42 => create_fault_suppressed t w s hc h42,
    fun s hc h42 => (create_fault_raised t w s hc h42).1⟩
  · rw [(create_ok_of_none t w hc).1]
    rfl
  · have hcf : (t.create_marker_table w).2.createFault = none := by
      rw [(create_fields t w).2.2.2.2.2.2, hc]
    rw [(create_ok_of_none t (t.create_marker_table w).2 hcf).1]
    rfl

theorem C3_witness :
    (exceptOk (t0.create_marker_table w0).1 = true
      ∧ exceptOk (t0.create_marker_table (t0.create_marker_table w0).2).1 = true)
    ∧ (t0.create_marker_table wCreateDup).1 = .ok ()
    ∧ (t0.create_marker_table wCreateBoom).1 = .error (.verr false "boom") :=
  ⟨(C3_create_idempotent t0 w0).1 rfl,
   (C3_create_idempotent t0 wCreateDup).2.1 duplicateTableMsg rfl (by decide),
   (C3_create_idempotent t0 wCreateBoom).2.2 "boom" rfl (by decide)⟩

/-- C4: `touch` always runs `create_marker_table` first (every path
opens at least the creation connection), a creation error propagates
unchanged, and any INSERT failure propagates unchanged. -/
theorem C4_touch_sequencing (t : VerticaTarget) (conn : Option Nat) (w : World) :
    (∀ e, (t.create_marker_table w).1 = .error e → (t.touch conn w).1 = .error e)
    ∧ (∀ e, (t.create_marker_table w).1 = .ok () →
        executeInsert (getConnection t conn (t.create_marker_table w).2).1 t.update_id t.table
          (getConnection t conn (t.create_marker_table w).2).2 = .error e →
        (t.touch conn w).1 = .error e)
    ∧ w.connectCalls + 1 ≤ (t.touch conn w).2.connectCalls := by
  refine ⟨fun e h => ?_, fun e hok hins => ?_, touch_connectCalls t conn w⟩
  · rw [touch_create_error t conn w e h]
  · rw [touch_insert_error t conn w e hok hins]

theorem C4_witness :
    (t0.touch none wCreateBoom).1 = .error (.verr false "boom")
    ∧ (t0.touch none wInsertBoom).1 = .error (.verr false "Severity: ERROR, network failure")
    ∧ (t0.touch none wCreateDup).1 = .error (.verr true missingTableMsg)
    ∧ wInsertBoom.connectCalls + 1 ≤ (t0.touch none wInsertBoom).2.connectCalls :=
  ⟨(C4_touch_sequencing t0 none wCreateBoom).1 (.verr false "boom") (by decide),
   (C4_touch_sequencing t0 none wInsertBoom).2.1 (.verr false "Severity: ERROR, network failure")
     (by decide) (by decide),
   (C4_touch_sequencing t0 none wCreateDup).2.1 (.verr true missingTableMsg)
     (by decide) (by decide),
   (C4_touch_sequencing t0 none wInsertBoom).2.2⟩

/-- C5: with no injected faults, a first `touch` succeeds and adds one
marker row for this updateID, a second `touch` also succeeds and adds a
second row rather than being rejected, and `exists` is true after
both. -/
theorem C5_touch_twice (t : VerticaTarget) (w : World)
    (hwf : wfB w = true) (hs : w.selectFault = none) (hi : w.insertFault = none)
    (hc : w.createFault = none) :
    (t.touch none w).1 = .ok (w.nextId + 1)
    ∧ countFor t.update_id (t.touch none w).2.rows = countFor t.update_id w.rows + 1
    ∧ (t.touch none (t.touch none w).2).1 = .ok (w.nextId + 3)
    ∧ countFor t.update_id (t.touch none (t.touch none w).2).2.rows
        = countFor t.update_id w.rows + 2
    ∧ t.exists (some (w.nextId + 3)) (t.touch none (t.touch none w).2).2
        = (.ok true, w.nextId + 3, (t.touch none (t.touch none w).2).2) := by
  obtain ⟨h1ok, h1rows, h1next, h1s, h1i, h1c, h1T, h1wf⟩ := touch_none_spec t w hwf hs hi hc
  obtain ⟨h2ok, h2rows, h2next, h2s, h2i, h2c, h2T, h2wf⟩ :=
    touch_none_spec t (t.touch none w).2 h1wf h1s h1i h1c
  have hcount1 : countFor t.update_id (t.touch none w).2.rows
      = countFor t.update_id w.rows + 1 := by
    rw [h1rows, countFor_append_self]
  have h2okn : (t.touch none (t.touch none w).2).1 = .ok (w.nextId + 3) := by
    rw [h2ok, h1next]
  have hcount2 : countFor t.update_id (t.touch none (t.touch none w).2).2.rows
      = countFor t.update_id w.rows + 2 := by
    rw [h2rows, countFor_append_self, hcount1]
  have hex := touch_ok_exists_helper t none (t.touch none w).2 (w.nextId + 3) h2okn
  exact ⟨h1ok, hcount1, h2okn, hcount2, hex⟩

theorem C5_witness :
    (t0.touch none w0).1 = .ok 1
    ∧ countFor t0.update_id (t0.touch none w0).2.rows = countFor t0.update_id w0.rows + 1
    ∧ (t0.touch none (t0.touch none w0).2).1 = .ok 3
    ∧ countFor t0.update_id (t0.touch none (t0.touch none w0).2).2.rows
        = countFor t0.update_id w0.rows + 2
    ∧ t0.exists (some 3) (t0.touch none (t0.touch none w0).2).2
        = (.ok true, 3, (t0.touch none (t0.touch none w0).2).2) :=
  C5_touch_twice t0 w0 (by decide) rfl rfl rfl

/-- C6 counterexample: with the marker table creation failing on an
error that does not carry `Sqlstate: 42710`, `create_marker_table`
propagates the error but leaves the dedicated connection it opened (id
0) open: `connection.close()` sits after the `try/except` block and is
skipped by the re-raise. -/
theorem C6_counterexample :
    (t0.create_marker_table wCreateBoom).1 = .error (.verr false "boom")
    ∧ connOpen wCreateBoom.nextId (t0.create_marker_table wCreateBoom).2 = true := by
  decide

/-- C6 (amended): `create_marker_table` closes its dedicated connection
on every path on which it returns successfully (including the
suppressed duplicate-relation path), but when the CREATE fails with an
error other than the duplicate-relation condition the error propagates
with the connection still open. -/
theorem C6_create_close_paths (t : VerticaTarget) (w : World) (hwf : wfB w = true) :
    ((t.create_marker_table w).1 = .ok () →
      connOpen w.nextId (t.create_marker_table w).2 = false)
    ∧ (∀ e, (t.create_marker_table w).1 = .error e →
      connOpen w.nextId (t.create_marker_table w).2 = true) := by
  have hfresh : findConn (t.connect true w).2 w.nextId = some ⟨w.nextId, true, true, []⟩ :=
    findConn_connect_fresh t true w hwf
  have hfresh2 : findConn { (t.connect true w).2 with tableExists := true } w.nextId
      = some ⟨w.nextId, true, true, []⟩ := by
    simpa [findConn] using hfresh
  have hclosed1 : connOpen w.nextId (closeConn w.nextId (t.connect true w).2) = false := by
    simp [connOpen, findConn_closeConn_self _ _ _ hfresh]
  have hclosed2 : connOpen w.nextId
      (closeConn w.nextId { (t.connect true w).2 with tableExists := true }) = false := by
    simp [connOpen, findConn_closeConn_self _ _ _ hfresh2]
  have hopen : connOpen w.nextId (t.connect true w).2 = true := by
    simp [connOpen, hfresh]
  rw [create_cases]
  cases hc : w.createFault with
  | some s =>
      by_cases h42 : strContains s sqlstate42710 = true <;> simp [h42]
      · exact hclosed1
      · exact hopen
  | none =>
      by_cases hT : w.tableExists = true <;> simp [hT]
      · exact hclosed1
      · exact hclosed2

theorem C6_witness :
    connOpen w0.nextId (t0.create_marker_table w0).2 = false
    ∧ connOpen wCreateBoom.nextId (t0.create_marker_table wCreateBoom).2 = true :=
  ⟨(C6_create_close_paths t0 w0 (by decide)).1 (by decide),
   (C6_create_close_paths t0 wCreateBoom (by decide)).2 (.verr false "boom") (by decide)⟩

/-- C7: the constructor splits `host` on a colon when one is present
(the port part going through Python `int`, whose failure on a
non-numeric port raises), defaults the port to 5433 when there is no
colon, and stores every other field verbatim. -/
theorem C7_construct_parses_host (host database user password table update_id : String) :
    (host.data.any (fun d => d == ':') = false →
      VerticaTarget.init host database user password table update_id =
        .ok ⟨host, 5433, database, user, password, table, update_id⟩)
    ∧ (∀ h p : String, pySplitColon host = [h, p] →
        (∀ n : Int, pyInt p = some n →
          VerticaTarget.init host database user password table update_id =
            .ok ⟨h, n, database, user, password, table, update_id⟩)
        ∧ (pyInt p = none →
          VerticaTarget.init host database user password table update_id =
            .error (.valueError "invalid literal for int with base 10"))) := by
  constructor
  · intro hno
    simp [VerticaTarget.init, hno]
  · intro h p hsp
    have hany : host.data.any (fun d => d == ':') = true :=
      any_colon_of_parts host (by rw [hsp]; simp)
    constructor
    · intro n hn
      simp [VerticaTarget.init, hany, hsp, hn]
    · intro hn
      simp [VerticaTarget.init, hany, hsp, hn]

theorem C7_witness :
    VerticaTarget.init "vertica.example.com" "db" "u" "pw" "tbl" "uid" =
      .ok ⟨"vertica.example.com", 5433, "db", "u", "pw", "tbl", "uid"⟩
    ∧ VerticaTarget.init "vertica.example.com:5433" "db" "u" "pw" "tbl" "uid" =
      .ok ⟨"vertica.example.com", 5433, "db", "u", "pw", "tbl", "uid"⟩
    ∧ VerticaTarget.init "vertica.example.com:name" "db" "u" "pw" "tbl" "uid" =
      .error (.valueError "invalid literal for int with base 10") :=
  ⟨(C7_construct_parses_host "vertica.example.com" "db" "u" "pw" "tbl" "uid").1 (by decide),
   ((C7_construct_parses_host "vertica.example.com:5433" "db" "u" "pw" "tbl" "uid").2
     "vertica.example.com" "5433" (by decide)).1 5433 (by decide),
   ((C7_construct_parses_host "vertica.example.com:name" "db" "u" "pw" "tbl" "uid").2
     "vertica.example.com" "name" (by decide)).2 (by decide)⟩

/-- C8: `exists` with a caller-supplied connection runs the SELECT on
exactly that connection, opens no new connection (the world, and in
particular the connect counter, is unchanged) and does not close the
supplied connection. -/
theorem C8_exists_borrowed_frame (t : VerticaTarget) (c : Nat) (w : World) :
    (t.exists (some c) w).2.1 = c
    ∧ (t.exists (some c) w).2.2 = w
    ∧ (t.exists (some c) w).2.2.connectCalls = w.connectCalls
    ∧ connOpen c (t.exists (some c) w).2.2 = connOpen c w := by
  obtain ⟨h1, h2⟩ := exists_some_frame t c w
  exact ⟨h1, h2, by rw [h2], by rw [h2]⟩

/-- C9: `touch` on a caller-supplied connection never changes that
autocommit flag of that connection, never commits, never closes it; on a
non-autocommit connection the durable rows are untouched — the marker
row only sits in the pending set of the connection after a successful
`touch`, and becomes durable exactly when the caller commits. -/
theorem C9_touch_borrowed_frame (t : VerticaTarget) (c : Nat) (w : World) (ci : ConnInfo)
    (hwf : wfB w = true) (hfc : findConn w c = some ci) :
    connAutocommit c (t.touch (some c) w).2 = connAutocommit c w
    ∧ connOpen c (t.touch (some c) w).2 = connOpen c w
    ∧ (t.touch (some c) w).2.commitCalls = w.commitCalls
    ∧ (ci.autocommit = false → (t.touch (some c) w).2.rows = w.rows)
    ∧ (ci.autocommit = false → (t.touch (some c) w).1 = .ok c →
        connPending c (t.touch (some c) w).2 = ci.pending ++ [(t.update_id, t.table)])
    ∧ (commitConn c (t.touch (some c) w).2).rows
        = (t.touch (some c) w).2.rows ++ connPending c (t.touch (some c) w).2 := by
  obtain ⟨cj, hcj, hau, hio, hcc, hrows, hpend⟩ := touch_some_frame t c w ci hwf hfc
  refine ⟨?_, ?_, hcc, hrows, ?_, commitConn_rows c _⟩
  · simp [connAutocommit, hcj, hfc, hau]
  · simp [connOpen, hcj, hfc, hio]
  · intro hac hok
    simp [connPending, hcj, hpend hac hok]

theorem C9_witness :
    connAutocommit 0 (t0.touch (some 0) wBorrowed).2 = connAutocommit 0 wBorrowed
    ∧ (t0.touch (some 0) wBorrowed).2.commitCalls = wBorrowed.commitCalls
    ∧ (t0.touch (some 0) wBorrowed).2.rows = wBorrowed.rows
    ∧ connPending 0 (t0.touch (some 0) wBorrowed).2 = [] ++ [(t0.update_id, t0.table)]
    ∧ (commitConn 0 (t0.touch (some 0) wBorrowed).2).rows
        = (t0.touch (some 0) wBorrowed).2.rows ++ connPending 0 (t0.touch (some 0) wBorrowed).2 :=
  ⟨(C9_touch_borrowed_frame t0 0 wBorrowed ⟨0, false, true, []⟩ (by decide) (by decide)).1,
   (C9_touch_borrowed_frame t0 0 wBorrowed ⟨0, false, true, []⟩ (by decide) (by decide)).2.2.1,
   (C9_touch_borrowed_frame t0 0 wBorrowed ⟨0, false, true, []⟩ (by decide) (by decide)).2.2.2.1
     rfl,
   (C9_touch_borrowed_frame t0 0 wBorrowed ⟨0, false, true, []⟩ (by decide) (by decide)).2.2.2.2.1
     rfl (by decide),
   (C9_touch_borrowed_frame t0 0 wBorrowed ⟨0, false, true, []⟩ (by decide)
     (by decide)).2.2.2.2.2⟩

/-- C10: any host string containing two or more colons (for example an
IPv6 literal) makes the constructor raise: `host.split(":")` yields more
than two parts and unpacking into `(host, port)` fails, so only
zero-colon and one-colon host strings are accepted. -/
theorem C10_construct_multi_colon (host database user password table update_id : String)
    (hlen : 2 < (pySplitColon host).length) :
    VerticaTarget.init host database user password table update_id =
      .error (.valueError "too many values to unpack") := by
  have hany : host.data.any (fun d => d == ':') = true :=
    any_colon_of_parts host (by omega)
  rcases hsp : pySplitColon host with _ | ⟨a, _ | ⟨b, _ | ⟨d, rest⟩⟩⟩
  · rw [hsp] at hlen
    simp at hlen
  · rw [hsp] at hlen
    simp at hlen
  · rw [hsp] at hlen
    simp at hlen
  · simp [VerticaTarget.init, hany, hsp]

theorem C10_witness :
    VerticaTarget.init "::1" "db" "u" "pw" "tbl" "uid" =
      .error (.valueError "too many values to unpack") :=
  C10_construct_multi_colon "::1" "db" "u" "pw" "tbl" "uid" (by decide)
